import Mathlib

/-!
Shallow embedding of the immune-cell-count ingestion and analysis pipeline
(`load_data.py`, `analysis.py`) together with proofs about the claims of the
specification.

Modelling conventions:
* pandas dataframes are Lean lists of typed records; nullable columns are
  `Option`-valued, counts are `ℕ`;
* float arithmetic is modelled by exact rationals `ℚ`; the float `NaN`
  produced by the unguarded `0 / 0` division in `_attach_percentages` is
  modelled as `none` in an `Option ℚ` (for the data at hand the divisor is
  zero exactly when the dividend is, so `NaN` is the only non-finite value
  that can arise);
* SQLite tables are lists of records; the `PRIMARY KEY` / `UNIQUE` /
  `FOREIGN KEY` constraints are enforced row by row at insertion time,
  mirroring `to_sql(..., if_exists="append")` on a connection with
  `PRAGMA foreign_keys = ON`;
* each `DataFrame.to_sql` call is transactional (pandas wraps the inserts of
  one call in a transaction that is committed at the end of the call and
  rolled back on error), so a failing insertion step leaves that one table
  empty while the previously completed steps stay committed;
* `_create_database` unlinks the database file before creating the fresh
  schema, so the prior store is discarded up front; a missing input CSV is
  modelled by passing `none` for the source, which raises before the unlink.
-/

namespace Teiko

/-- The fixed population set of `load_data.py` (`POPULATION_COLUMNS`). -/
def POPULATION_COLUMNS : List String :=
  ["b_cell", "cd8_t_cell", "cd4_t_cell", "nk_cell", "monocyte"]

/-- One row of the `subjects` table. -/
structure Subject where
  subject_id : String
  project : String
  condition : String
  age : Option Int
  sex : Option String
deriving DecidableEq

/-- One row of the `samples` table. -/
structure Sample where
  sample_id : String
  subject_id : String
  sample_type : String
  treatment : Option String
  response : Option String
  time_from_treatment_start : Option Int
deriving DecidableEq

/-- One row of the `cell_counts` table (the AUTOINCREMENT surrogate id is
determined by the insertion position and carries no information, so it is
omitted). -/
structure CellCount where
  sample_id : String
  population : String
  count : ℕ
deriving DecidableEq

/-- The persisted relational store (`teiko.db`). -/
structure Store where
  subjects : List Subject
  samples : List Sample
  cell_counts : List CellCount
deriving DecidableEq

/-- One row of the wide-format source table `cell-count.csv`. -/
structure SourceRow where
  sample : String
  subject : String
  project : String
  condition : String
  age : Option Int
  sex : Option String
  sample_type : String
  treatment : Option String
  response : Option String
  time_from_treatment_start : Option Int
  b_cell : ℕ
  cd8_t_cell : ℕ
  cd4_t_cell : ℕ
  nk_cell : ℕ
  monocyte : ℕ
deriving DecidableEq

/-- Errors surfaced by ingestion: the missing-CSV `FileNotFoundError` and the
two kinds of `sqlite3.IntegrityError` (uniqueness breach, foreign-key
breach). -/
inductive LoadError where
  | inputNotFound
  | uniqueViolation
  | fkViolation
deriving DecidableEq

/-- `DataFrame.drop_duplicates(subset=[key])`: keep the first occurrence of
every key, drop the later ones. -/
def dedupByKey {α β : Type} [DecidableEq β] (k : α → β) : List α → List α
  | [] => []
  | r :: rs => r :: dedupByKey k (rs.filter fun x => decide (k x ≠ k r))
termination_by l => l.length
decreasing_by
  simp only [List.length_cons]
  exact Nat.lt_succ_of_le (List.length_filter_le _ _)

/-- Sequential constrained insertion, modelling `to_sql(if_exists="append")`
into a table with a unique key `key` and a per-row foreign-key check `fk`:
rows are appended one by one and the first constraint breach aborts the
call. -/
def insertChecked {α β : Type} [DecidableEq β] (key : α → β) (fk : α → Bool) :
    List α → List α → Except LoadError (List α)
  | tbl, [] => .ok tbl
  | tbl, r :: rs =>
    if tbl.any fun x => decide (key x = key r) then .error .uniqueViolation
    else if fk r then insertChecked key fk (tbl ++ [r]) rs
    else .error .fkViolation

/-- Projection of a source row onto the `subjects` columns. -/
def toSubject (r : SourceRow) : Subject :=
  ⟨r.subject, r.project, r.condition, r.age, r.sex⟩

/-- Projection of a source row onto the `samples` columns. -/
def toSample (r : SourceRow) : Sample :=
  ⟨r.sample, r.subject, r.sample_type, r.treatment, r.response,
    r.time_from_treatment_start⟩

/-- Value of one population column of a source row, keyed by column name. -/
def popValue (r : SourceRow) (p : String) : ℕ :=
  if p = "b_cell" then r.b_cell
  else if p = "cd8_t_cell" then r.cd8_t_cell
  else if p = "cd4_t_cell" then r.cd4_t_cell
  else if p = "nk_cell" then r.nk_cell
  else if p = "monocyte" then r.monocyte
  else 0

/-- One melted cell-count record. -/
def meltRow (p : String) (r : SourceRow) : CellCount :=
  ⟨r.sample, p, popValue r p⟩

/-- `df.melt(id_vars=["sample"], value_vars=POPULATION_COLUMNS, ...)`:
wide-to-long reshape; pandas stacks one block per value column. The raw,
non-deduplicated source frame is melted. -/
def melt (src : List SourceRow) : List CellCount :=
  POPULATION_COLUMNS.flatMap fun p => src.map (meltRow p)

/-- The subject rows produced from a source: projection, deduplication by
`subject` (first occurrence wins), rename. -/
def subjectsOf (src : List SourceRow) : List Subject :=
  (dedupByKey (fun r => r.subject) src).map toSubject

/-- The sample rows produced from a source: projection, deduplication by
`sample` (first occurrence wins), rename. -/
def samplesOf (src : List SourceRow) : List Sample :=
  (dedupByKey (fun r => r.sample) src).map toSample

/-- `_insert_subjects`: project, deduplicate by `subject` (first occurrence
wins) and append into `subjects` (primary key `subject_id`, no foreign
key). -/
def _insert_subjects (src : List SourceRow) : Except LoadError (List Subject) :=
  insertChecked Subject.subject_id (fun _ => true) [] (subjectsOf src)

/-- `_insert_samples`: project, deduplicate by `sample` (first occurrence
wins) and append into `samples` (primary key `sample_id`, foreign key
`subject_id → subjects`). -/
def _insert_samples (subjTbl : List Subject) (src : List SourceRow) :
    Except LoadError (List Sample) :=
  insertChecked Sample.sample_id
    (fun s => subjTbl.any fun x => decide (x.subject_id = s.subject_id)) []
    (samplesOf src)

/-- `_insert_cell_counts`: melt the raw source and append into `cell_counts`
(`UNIQUE(sample_id, population)`, foreign key `sample_id → samples`). No
deduplication happens at this level. -/
def _insert_cell_counts (sampTbl : List Sample) (src : List SourceRow) :
    Except LoadError (List CellCount) :=
  insertChecked (fun c => (c.sample_id, c.population))
    (fun c => sampTbl.any fun s => decide (s.sample_id = c.sample_id)) []
    (melt src)

/-- The store holding only the freshly created empty schema. -/
def emptyStore : Store := ⟨[], [], []⟩

/-- `load_all`: raise `FileNotFoundError` if the CSV is missing (before the
database file is touched), otherwise delete the prior database file, create a
fresh schema and run the three insertion steps, committing step by step.
The returned pair is the persisted store as observable after the call
together with the raised error, if any. -/
def load_all (prior : Store) (src? : Option (List SourceRow)) :
    Store × Option LoadError :=
  match src? with
  | none => (prior, some .inputNotFound)
  | some src =>
    match _insert_subjects src with
    | .error e => (emptyStore, some e)
    | .ok subjTbl =>
      match _insert_samples subjTbl src with
      | .error e => ({ emptyStore with subjects := subjTbl }, some e)
      | .ok sampTbl =>
        match _insert_cell_counts sampTbl src with
        | .error e => (⟨subjTbl, sampTbl, []⟩, some e)
        | .ok ccTbl => (⟨subjTbl, sampTbl, ccTbl⟩, none)

/-- The fixed population list of `analysis.py` (`POPULATIONS`). -/
def POPULATIONS : List String :=
  ["b_cell", "cd8_t_cell", "cd4_t_cell", "nk_cell", "monocyte"]

/-- `SIGNIFICANCE_THRESHOLD` of `analysis.py`. -/
def SIGNIFICANCE_THRESHOLD : ℚ := 1 / 20

/-- Total count of a sample: the `groupby("sample")["count"].sum()` value
that the merge of `_attach_percentages` attaches to every row of that
sample. -/
def totalFor {α : Type} (sampleOf : α → String) (countOf : α → ℕ)
    (rows : List α) (s : String) : ℕ :=
  ((rows.filter fun r => decide (sampleOf r = s)).map countOf).sum

/-- A dataframe row extended with the `total_count` and `percentage` columns
added by `_attach_percentages`; `percentage = none` models the float `NaN`
produced by the unguarded `0 / 0` division. -/
structure WithPct (α : Type) where
  row : α
  total_count : ℕ
  percentage : Option ℚ
deriving DecidableEq

/-- `_attach_percentages`: group by `sample`, sum the counts, merge the
per-sample total back onto every row and divide. `count / total_count * 100`
is `NaN` exactly when `total_count = 0` (all counts of the sample are then
zero, so the division is `0 / 0`). -/
def _attach_percentages {α : Type} (sampleOf : α → String) (countOf : α → ℕ)
    (rows : List α) : List (WithPct α) :=
  rows.map fun r =>
    let t := totalFor sampleOf countOf rows (sampleOf r)
    ⟨r, t, if t = 0 then none else some ((countOf r : ℚ) / (t : ℚ) * 100)⟩

/-- One row of the frequency table returned by `build_frequency_table`,
with the column order `[sample, total_count, population, count,
percentage]` of the source. -/
structure FreqRow where
  sample : String
  total_count : ℕ
  population : String
  count : ℕ
  percentage : Option ℚ
deriving DecidableEq

/-- Sort key of `sort_values(["sample", "population"])`. -/
def freqKey (r : FreqRow) : String ×ₗ String :=
  toLex (r.sample, r.population)

/-- The (total, transitive) sorting relation of the frequency table:
lexicographic on `(sample, population)`. -/
def freqLE (a b : FreqRow) : Prop :=
  freqKey a ≤ freqKey b

instance : DecidableRel freqLE :=
  fun a b => inferInstanceAs (Decidable (freqKey a ≤ freqKey b))

instance : IsTotal FreqRow freqLE :=
  ⟨fun a b => le_total (freqKey a) (freqKey b)⟩

instance : IsTrans FreqRow freqLE :=
  ⟨fun _ _ _ h₁ h₂ => le_trans h₁ h₂⟩

/-- `build_frequency_table`: read the `cell_counts` table, attach totals and
percentages, project the columns and sort by `(sample, population)`
ascending. -/
def build_frequency_table (st : Store) : List FreqRow :=
  List.insertionSort freqLE
    ((_attach_percentages CellCount.sample_id CellCount.count st.cell_counts).map
      fun w => ⟨w.row.sample_id, w.total_count, w.row.population, w.row.count,
        w.percentage⟩)

/-- One row of the melanoma/miraclib/PBMC cohort query of
`fetch_melanoma_miraclib_pbmc` (before percentages are attached). -/
structure MelRow where
  sample : String
  subject : String
  response : Option String
  time_from_treatment_start : Option Int
  sex : Option String
  population : String
  count : ℕ
deriving DecidableEq

/-- The SQL query of `fetch_melanoma_miraclib_pbmc`: three-way join of
`cell_counts`, `samples` and `subjects` filtered by condition = melanoma,
treatment = miraclib and sample_type = PBMC (SQL `=` is false on NULL). -/
def melJoined (st : Store) : List MelRow :=
  st.cell_counts.flatMap fun cc =>
    (st.samples.filter fun s =>
        decide (cc.sample_id = s.sample_id) &&
        decide (s.treatment = some "miraclib") &&
        decide (s.sample_type = "PBMC")).flatMap fun s =>
      (st.subjects.filter fun sub =>
          decide (s.subject_id = sub.subject_id) &&
          decide (sub.condition = "melanoma")).map fun sub =>
        ⟨cc.sample_id, s.subject_id, s.response, s.time_from_treatment_start,
          sub.sex, cc.population, cc.count⟩

/-- `fetch_melanoma_miraclib_pbmc`: the cohort query joined with
`_attach_percentages`. -/
def fetch_melanoma_miraclib_pbmc (st : Store) : List (WithPct MelRow) :=
  _attach_percentages MelRow.sample MelRow.count (melJoined st)

/-- Errors raised inside `compare_responders`: the `ValueError` that
`scipy.stats.mannwhitneyu` raises when fed an empty sample. The source has
no handler for it. -/
inductive AnalysisError where
  | valueError
deriving DecidableEq

/-- The Mann-Whitney U statistic of the first sample (pairwise wins plus
half-ties). -/
def uStatistic (xs ys : List ℚ) : ℚ :=
  (xs.map fun x =>
    (ys.map fun y => if y < x then (1 : ℚ) else if y = x then 1 / 2 else 0).sum).sum

/-- Number of ways to interleave `m` and `n` observations so that the
U statistic equals `u` (the classical Mann-Whitney counting recurrence). -/
def mwNum : ℕ → ℕ → ℤ → ℕ
  | 0, _, u => if u = 0 then 1 else 0
  | _ + 1, 0, u => if u = 0 then 1 else 0
  | m + 1, n + 1, u =>
    if u < 0 then 0
    else mwNum m (n + 1) (u - (n + 1)) + mwNum (m + 1) n u
termination_by m n _ => (m, n)

/-- Cumulative distribution of the U statistic under the null hypothesis. -/
def mwCdf (m n : ℕ) (u : ℤ) : ℚ :=
  (((List.range (m * n + 1)).filter fun k => decide ((k : ℤ) ≤ u)).map
    fun k => (mwNum m n (k : ℤ) : ℚ)).sum / (Nat.choose (m + n) m : ℚ)

/-- Two-sided exact p-value, modelling the small-sample exact method of the
library test (the asymptotic branch needs transcendental arithmetic and no
claim depends on the numeric p-value). -/
def pExact (xs ys : List ℚ) : ℚ :=
  let m := xs.length
  let n := ys.length
  let u := uStatistic xs ys
  min 1 (2 * min (mwCdf m n ⌊u⌋) (1 - mwCdf m n (⌈u⌉ - 1)))

/-- Contract of `scipy.stats.mannwhitneyu(x, y, alternative="two-sided")`,
which is external library code: it raises `ValueError` when either sample
has zero size, propagates `NaN` inputs to `NaN` outputs, and otherwise
returns the U statistic of `x` and a two-sided p-value. -/
def mannwhitneyu (x y : List (Option ℚ)) :
    Except AnalysisError (Option ℚ × Option ℚ) :=
  if x.length = 0 ∨ y.length = 0 then .error .valueError
  else if (x.any fun v => v.isNone) || (y.any fun v => v.isNone) then
    .ok (none, none)
  else
    let xs := x.filterMap id
    let ys := y.filterMap id
    .ok (some (uStatistic xs ys), some (pExact xs ys))

/-- One result row of `compare_responders`. -/
structure StatRow where
  population : String
  u_statistic : Option ℚ
  p_value : Option ℚ
  significant : Bool
deriving DecidableEq

/-- `df[df["population"] == pop]` inside the loop of `compare_responders`. -/
def popFilter (df : List (WithPct MelRow)) (pop : String) :
    List (WithPct MelRow) :=
  df.filter fun w => decide (w.row.population = pop)

/-- The `percentage` values of the responder ("yes") group for one
population. -/
def yesGroup (df : List (WithPct MelRow)) (pop : String) : List (Option ℚ) :=
  ((popFilter df pop).filter fun w => decide (w.row.response = some "yes")).map
    fun w => w.percentage

/-- The `percentage` values of the non-responder ("no") group for one
population. -/
def noGroup (df : List (WithPct MelRow)) (pop : String) : List (Option ℚ) :=
  ((popFilter df pop).filter fun w => decide (w.row.response = some "no")).map
    fun w => w.percentage

/-- The loop body of `compare_responders` over a population list: each
iteration calls `mannwhitneyu` and appends a result row; an exception
escapes the loop and discards all rows (Python has no handler here, so the
first library error aborts the whole run). `NaN < threshold` is false, hence
`significant := false` on a `NaN` p-value. -/
def compareGo (df : List (WithPct MelRow)) :
    List String → Except AnalysisError (List StatRow)
  | [] => .ok []
  | pop :: rest =>
    match mannwhitneyu (yesGroup df pop) (noGroup df pop) with
    | .error e => .error e
    | .ok (u, p) =>
      match compareGo df rest with
      | .error e => .error e
      | .ok rows =>
        .ok ({ population := pop, u_statistic := u, p_value := p,
               significant :=
                 match p with
                 | some q => decide (q < SIGNIFICANCE_THRESHOLD)
                 | none => false } :: rows)

/-- `compare_responders`: Mann-Whitney U test per population of the fixed
population list, responders vs non-responders. -/
def compare_responders (df : List (WithPct MelRow)) :
    Except AnalysisError (List StatRow) :=
  compareGo df POPULATIONS

/-- One row of the baseline query of `fetch_baseline_melanoma_samples`. -/
structure BaselineRow where
  sample_id : String
  subject_id : String
  project : String
  condition : String
  treatment : Option String
  response : Option String
  sex : Option String
  time_from_treatment_start : Option Int
deriving DecidableEq

/-- `fetch_baseline_melanoma_samples`: join of `samples` and `subjects`
filtered by condition = melanoma, sample_type = PBMC, treatment = miraclib
and time_from_treatment_start = 0. -/
def fetch_baseline_melanoma_samples (st : Store) : List BaselineRow :=
  st.samples.flatMap fun s =>
    (st.subjects.filter fun sub =>
        decide (s.subject_id = sub.subject_id) &&
        decide (sub.condition = "melanoma") &&
        decide (s.sample_type = "PBMC") &&
        decide (s.treatment = some "miraclib") &&
        decide (s.time_from_treatment_start = some 0)).map fun sub =>
      ⟨s.sample_id, s.subject_id, sub.project, sub.condition, s.treatment,
        s.response, sub.sex, s.time_from_treatment_start⟩

/-- The three aggregate mappings returned by `summarize_baseline_subset`;
a pandas `value_counts`/`groupby` series is modelled as the function from a
value to its count. -/
structure BaselineSummary where
  samples_per_project : String → ℕ
  response_counts : String → ℕ
  sex_counts : String → ℕ

/-- `summarize_baseline_subset`: `samples_per_project` counts the baseline
rows per project; `response_counts` and `sex_counts` first deduplicate the
rows by `subject_id` (first occurrence wins) and then count the subjects per
non-null value (`value_counts` drops nulls). -/
def summarize_baseline_subset (baseline : List BaselineRow) : BaselineSummary :=
  let subjects := dedupByKey (fun r => r.subject_id) baseline
  { samples_per_project := fun p =>
      (baseline.filter fun r => decide (r.project = p)).length
    response_counts := fun v =>
      (subjects.filter fun r => decide (r.response = some v)).length
    sex_counts := fun v =>
      (subjects.filter fun r => decide (r.sex = some v)).length }

/-- The frequency rows before sorting: the attach-percentages output under
the column projection of `build_frequency_table`. -/
def freqRows (cc : List CellCount) : List FreqRow :=
  (_attach_percentages CellCount.sample_id CellCount.count cc).map
    fun w => ⟨w.row.sample_id, w.total_count, w.row.population, w.row.count,
      w.percentage⟩

/-! ### Concrete data used by witnesses and counterexamples -/

/-- A well-formed two-row source (two samples of one subject). -/
def demoSrc : List SourceRow :=
  [⟨"s1", "p1", "prj1", "melanoma", some 40, some "M", "PBMC",
     some "miraclib", some "yes", some 0, 100, 200, 300, 250, 150⟩,
   ⟨"s2", "p1", "prj1", "melanoma", some 40, some "M", "PBMC",
     some "miraclib", some "no", some 7, 80, 220, 310, 240, 160⟩]

/-- A source with a repeated sample id (two rows both named `s1`). -/
def srcDup : List SourceRow :=
  [⟨"s1", "p1", "prj1", "melanoma", some 40, some "M", "PBMC",
     some "miraclib", some "yes", some 0, 100, 200, 300, 250, 150⟩,
   ⟨"s1", "p2", "prj1", "melanoma", some 35, some "F", "PBMC",
     some "miraclib", some "no", some 0, 10, 20, 30, 25, 15⟩]

/-- A nonempty prior store (as left by some earlier successful run). -/
def priorC2 : Store :=
  ⟨[⟨"p0", "prj0", "lung", none, none⟩],
   [⟨"s0", "p0", "PBMC", none, none, none⟩],
   [⟨"s0", "b_cell", 1⟩]⟩

/-- A cell-count table with one positive-total sample (`s1`) and one
zero-total sample (`s0`). -/
def ccDemo : List CellCount :=
  [⟨"s1", "b_cell", 100⟩, ⟨"s1", "cd8_t_cell", 300⟩, ⟨"s0", "b_cell", 0⟩]

/-- A store whose `cell_counts` table is `ccDemo`. -/
def demoStore : Store := ⟨[], [], ccDemo⟩

/-- A percentage dataframe in which the `b_cell` population has responders
but no non-responders, while every other population has both groups. -/
def dfC3 : List (WithPct MelRow) :=
  [⟨⟨"sa", "pa", some "yes", some 0, some "M", "b_cell", 10⟩, 20, some 50⟩,
   ⟨⟨"sa", "pa", some "yes", some 0, some "M", "cd8_t_cell", 8⟩, 20, some 40⟩,
   ⟨⟨"sb", "pb", some "no", some 0, some "F", "cd8_t_cell", 12⟩, 20, some 60⟩,
   ⟨⟨"sa", "pa", some "yes", some 0, some "M", "cd4_t_cell", 6⟩, 20, some 30⟩,
   ⟨⟨"sb", "pb", some "no", some 0, some "F", "cd4_t_cell", 14⟩, 20, some 70⟩,
   ⟨⟨"sa", "pa", some "yes", some 0, some "M", "nk_cell", 4⟩, 20, some 20⟩,
   ⟨⟨"sb", "pb", some "no", some 0, some "F", "nk_cell", 16⟩, 20, some 80⟩,
   ⟨⟨"sa", "pa", some "yes", some 0, some "M", "monocyte", 2⟩, 20, some 10⟩,
   ⟨⟨"sb", "pb", some "no", some 0, some "F", "monocyte", 18⟩, 20, some 90⟩]

/-- A store in which no sample matches the melanoma/miraclib/PBMC or the
baseline predicate (the treatment differs). -/
def stC8 : Store :=
  ⟨[⟨"p1", "prj1", "melanoma", none, some "M"⟩],
   [⟨"s1", "p1", "PBMC", some "drugX", some "yes", some 0⟩],
   [⟨"s1", "b_cell", 5⟩]⟩

/-- The baseline cohort of the specification example: subject `A`
contributing two samples (response yes) and subject `B` one sample
(response no), all in one project. -/
def demoBaseline : List BaselineRow :=
  [⟨"sA1", "A", "prj1", "melanoma", some "miraclib", some "yes", some "M", some 0⟩,
   ⟨"sA2", "A", "prj1", "melanoma", some "miraclib", some "yes", some "M", some 0⟩,
   ⟨"sB1", "B", "prj1", "melanoma", some "miraclib", some "no", some "F", some 0⟩]

/-! ### Generic list lemmas -/

theorem sum_map_add_nat {β : Type} (l : List β) (f g : β → ℕ) :
    (l.map fun v => f v + g v).sum = (l.map f).sum + (l.map g).sum := by
  induction l with
  | nil => simp
  | cons v vs ih => simp [ih]; omega

theorem sum_indicator_one {β : Type} [DecidableEq β] (a : β) :
    ∀ (vs : List β), vs.Nodup → a ∈ vs →
      (vs.map fun v => if a = v then (1 : ℕ) else 0).sum = 1 := by
  intro vs
  induction vs with
  | nil => intro _ h; cases h
  | cons v vs ih =>
    intro hnd hmem
    rcases List.nodup_cons.mp hnd with ⟨hv, hnd'⟩
    by_cases hav : a = v
    · subst hav
      have hzero : (vs.map fun w => if a = w then (1 : ℕ) else 0)
          = vs.map fun _ => 0 := by
        apply List.map_congr_left
        intro w hw
        have : a ≠ w := fun h => hv (h ▸ hw)
        simp [this]
      simp [hzero]
    · have hmem' : a ∈ vs := by
        rcases List.mem_cons.mp hmem with h | h
        · exact absurd h hav
        · exact h
      simp [hav, ih hnd' hmem']

/-- Grouping a list by a key and summing the group sizes over the distinct
keys counts every element exactly once. -/
theorem sum_group_lengths {α β : Type} [DecidableEq β] (k : α → β)
    (l : List α) :
    (((l.map k).dedup).map fun v => l.countP fun x => decide (k x = v)).sum
      = l.length := by
  induction l with
  | nil => simp
  | cons x xs ih =>
    have hcnt : ∀ v, (x :: xs).countP (fun y => decide (k y = v))
        = (xs.countP fun y => decide (k y = v)) + (if k x = v then 1 else 0) := by
      intro v
      rw [List.countP_cons]
      by_cases h : k x = v <;> simp [h]
    by_cases hmem : k x ∈ xs.map k
    · rw [List.map_cons, List.dedup_cons_of_mem hmem,
        List.map_congr_left fun v _ => hcnt v, sum_map_add_nat, ih,
        sum_indicator_one (k x) ((xs.map k).dedup) (List.nodup_dedup _)
          (List.mem_dedup.mpr hmem)]
      simp [Nat.add_comm]
    · rw [List.map_cons, List.dedup_cons_of_not_mem hmem, List.map_cons,
        List.map_congr_left fun v _ => hcnt v]
      have hnd : ((xs.map k).dedup).Nodup := List.nodup_dedup _
      rw [List.sum_cons, sum_map_add_nat, ih]
      have hzero : xs.countP (fun y => decide (k y = k x)) = 0 := by
        rw [List.countP_eq_zero]
        intro y hy
        simp only [decide_eq_true_eq]
        exact fun h => hmem (h ▸ List.mem_map_of_mem k hy)
      have hind : (((xs.map k).dedup).map
          fun v => if k x = v then (1 : ℕ) else 0).sum = 0 := by
        have : (((xs.map k).dedup).map fun v => if k x = v then (1 : ℕ) else 0)
            = ((xs.map k).dedup).map fun _ => 0 := by
          apply List.map_congr_left
          intro v hv
          have : k x ≠ v := fun h => hmem (List.mem_dedup.mp (h ▸ hv))
          simp [this]
        simp [this]
      simp [hzero, hind]
      omega

/-- In a list whose keys are pairwise distinct, filtering on one present key
yields exactly one row. -/
theorem filter_len_one_of_nodup_keys {α β : Type} [DecidableEq β] (k : α → β) :
    ∀ (l : List α), (l.map k).Nodup → ∀ b ∈ l.map k,
      (l.filter fun x => decide (k x = b)).length = 1 := by
  intro l
  induction l with
  | nil => intro _ b hb; cases hb
  | cons y ys ih =>
    intro hnd b hb
    have hnd2 : (∀ x ∈ ys, ¬ k x = k y) ∧ (ys.map k).Nodup := by
      simpa using hnd
    rcases hnd2 with ⟨hy, hnd'⟩
    by_cases hyb : k y = b
    · have hnil : ys.filter (fun x => decide (k x = b)) = [] := by
        rw [List.filter_eq_nil_iff]
        intro x hx
        simp only [decide_eq_true_eq]
        exact fun h => hy x hx (hyb ▸ h)
      simp [List.filter_cons, hyb, hnil]
    · have hb2 : b = k y ∨ ∃ a ∈ ys, k a = b := by simpa using hb
      have hb' : b ∈ ys.map k := by
        rcases hb2 with h | ⟨a, ha, hab⟩
        · exact absurd h.symm hyb
        · exact List.mem_map.mpr ⟨a, ha, hab⟩
      simp [List.filter_cons, hyb, ih hnd' b hb']

/-! ### Lemmas about first-occurrence-wins deduplication -/

theorem mem_of_mem_dedupByKey {α β : Type} [DecidableEq β] (k : α → β)
    (l : List α) : ∀ x ∈ dedupByKey k l, x ∈ l := by
  induction l using dedupByKey.induct k with
  | case1 => simp [dedupByKey]
  | case2 r rs ih =>
    intro x hx
    rw [dedupByKey] at hx
    rcases List.mem_cons.mp hx with h | h
    · exact h ▸ List.mem_cons_self r rs
    · exact List.mem_cons_of_mem _ (List.mem_of_mem_filter (ih x h))

theorem nodup_keys_dedupByKey {α β : Type} [DecidableEq β] (k : α → β)
    (l : List α) : ((dedupByKey k l).map k).Nodup := by
  induction l using dedupByKey.induct k with
  | case1 => simp [dedupByKey]
  | case2 r rs ih =>
    rw [dedupByKey]
    simp only [List.map_cons, List.nodup_cons]
    refine ⟨?_, ih⟩
    intro hmem
    rcases List.mem_map.mp hmem with ⟨x, hx, hkx⟩
    have hxf := mem_of_mem_dedupByKey k _ x hx
    have := List.of_mem_filter hxf
    simp at this
    exact this hkx

theorem key_mem_dedupByKey {α β : Type} [DecidableEq β] (k : α → β)
    (l : List α) : ∀ x ∈ l, k x ∈ (dedupByKey k l).map k := by
  induction l using dedupByKey.induct k with
  | case1 => intro x hx; cases hx
  | case2 r rs ih =>
    intro x hx
    rw [dedupByKey]
    rcases List.mem_cons.mp hx with h | h
    · simp [h]
    · by_cases hk : k x = k r
      · simp [hk]
      · have hxf : x ∈ rs.filter fun y => decide (k y ≠ k r) := by
          apply List.mem_filter.mpr
          exact ⟨h, by simp [hk]⟩
        simp only [List.map_cons, List.mem_cons]
        exact Or.inr (ih x hxf)

theorem dedupByKey_eq_self {α β : Type} [DecidableEq β] (k : α → β)
    (l : List α) : (l.map k).Nodup → dedupByKey k l = l := by
  induction l using dedupByKey.induct k with
  | case1 => simp [dedupByKey]
  | case2 r rs ih =>
    intro hnd
    have hnd2 : (∀ x ∈ rs, ¬ k x = k r) ∧ (rs.map k).Nodup := by
      simpa using hnd
    rcases hnd2 with ⟨hr, hnd'⟩
    have hfe : rs.filter (fun x => decide (k x ≠ k r)) = rs := by
      rw [List.filter_eq_self]
      intro x hx
      simpa using hr x hx
    rw [hfe] at ih
    rw [dedupByKey, hfe, ih hnd']

theorem length_dedupByKey {α β : Type} [DecidableEq β] (k : α → β)
    (l : List α) : (dedupByKey k l).length = ((l.map k).dedup).length := by
  have hmemiff : ∀ b, b ∈ (dedupByKey k l).map k ↔ b ∈ (l.map k).dedup := by
    intro b
    constructor
    · intro hb
      rcases List.mem_map.mp hb with ⟨x, hx, hkx⟩
      exact List.mem_dedup.mpr
        (hkx ▸ List.mem_map_of_mem k (mem_of_mem_dedupByKey k l x hx))
    · intro hb
      rcases List.mem_map.mp (List.mem_dedup.mp hb) with ⟨x, hx, hkx⟩
      exact hkx ▸ key_mem_dedupByKey k l x hx
  have h1 : ((dedupByKey k l).map k).toFinset = ((l.map k).dedup).toFinset := by
    apply Finset.ext
    intro b
    simp only [List.mem_toFinset]
    exact hmemiff b
  have h1c : ((dedupByKey k l).map k).toFinset.card
      = ((l.map k).dedup).toFinset.card := by rw [h1]
  have h2 := List.toFinset_card_of_nodup (nodup_keys_dedupByKey k l)
  have h3 := List.toFinset_card_of_nodup (List.nodup_dedup (l.map k))
  have h4 : ((dedupByKey k l).map k).length = (dedupByKey k l).length :=
    List.length_map _ _
  omega

theorem dedupByKey_filter_len_one {α β : Type} [DecidableEq β] (k : α → β)
    (l : List α) (x : α) (hx : x ∈ l) :
    ((dedupByKey k l).filter fun y => decide (k y = k x)).length = 1 :=
  filter_len_one_of_nodup_keys k (dedupByKey k l) (nodup_keys_dedupByKey k l)
    (k x) (key_mem_dedupByKey k l x hx)

/-! ### Lemmas about constrained insertion -/

theorem insertChecked_ok {α β : Type} [DecidableEq β] (key : α → β)
    (fk : α → Bool) :
    ∀ (rows tbl : List α), (∀ r ∈ rows, fk r = true) →
      ((tbl ++ rows).map key).Nodup →
      insertChecked key fk tbl rows = .ok (tbl ++ rows) := by
  intro rows
  induction rows with
  | nil => intro tbl _ _; simp [insertChecked]
  | cons r rs ih =>
    intro tbl hfk hnd
    have hdisj : ∀ x ∈ tbl, key x ≠ key r := by
      intro x hx heq
      have hpair := (List.nodup_append.mp (by simpa using hnd)).2.2
      exact hpair (List.mem_map_of_mem key hx) (by simp [← heq])
    have hany : (tbl.any fun x => decide (key x = key r)) = false := by
      simp only [List.any_eq_false, decide_eq_true_eq]
      exact hdisj
    have hfkr : fk r = true := hfk r (List.mem_cons_self r rs)
    have hassoc : (tbl ++ [r]) ++ rs = tbl ++ r :: rs := by simp
    rw [insertChecked, hany]
    simp only [Bool.false_eq_true, if_false, hfkr, if_true]
    rw [ih (tbl ++ [r]) (fun x hx => hfk x (List.mem_cons_of_mem r hx))
      (by rw [hassoc]; exact hnd), hassoc]

theorem insertChecked_ok_inv {α β : Type} [DecidableEq β] (key : α → β)
    (fk : α → Bool) :
    ∀ (rows tbl tbl' : List α), (tbl.map key).Nodup →
      insertChecked key fk tbl rows = .ok tbl' →
      tbl' = tbl ++ rows ∧ ((tbl ++ rows).map key).Nodup := by
  intro rows
  induction rows with
  | nil =>
    intro tbl tbl' hnd h
    simp only [insertChecked, Except.ok.injEq] at h
    simpa [← h] using hnd
  | cons r rs ih =>
    intro tbl tbl' hnd h
    rw [insertChecked] at h
    by_cases hany : (tbl.any fun x => decide (key x = key r)) = true
    · rw [if_pos hany] at h; cases h
    · rw [if_neg hany] at h
      by_cases hfkr : fk r = true
      · rw [if_pos hfkr] at h
        have hnotin : key r ∉ tbl.map key := by
          intro hmem
          rcases List.mem_map.mp hmem with ⟨x, hx, hkx⟩
          exact hany (List.any_eq_true.mpr ⟨x, hx, by simp [hkx]⟩)
        have hnd1 : ((tbl ++ [r]).map key).Nodup := by
          rw [List.map_append]
          apply List.Nodup.append hnd (by simp)
          intro a ha hb
          simp only [List.map_cons, List.map_nil, List.mem_singleton] at hb
          exact hnotin (hb ▸ ha)
        rcases ih (tbl ++ [r]) tbl' hnd1 h with ⟨heq, hnd2⟩
        have hassoc : (tbl ++ [r]) ++ rs = tbl ++ r :: rs := by simp
        exact ⟨by rw [heq, hassoc], by rw [← hassoc]; exact hnd2⟩
      · rw [if_neg hfkr] at h; cases h

theorem insertChecked_ok_or_unique {α β : Type} [DecidableEq β] (key : α → β)
    (fk : α → Bool) :
    ∀ (rows tbl : List α), (∀ r ∈ rows, fk r = true) →
      insertChecked key fk tbl rows = .ok (tbl ++ rows) ∨
      insertChecked key fk tbl rows = .error .uniqueViolation := by
  intro rows
  induction rows with
  | nil => intro tbl _; left; simp [insertChecked]
  | cons r rs ih =>
    intro tbl hfk
    rw [insertChecked]
    by_cases hany : (tbl.any fun x => decide (key x = key r)) = true
    · right; rw [if_pos hany]
    · rw [if_neg hany, if_pos (hfk r (List.mem_cons_self r rs))]
      have hassoc : (tbl ++ [r]) ++ rs = tbl ++ r :: rs := by simp
      rcases ih (tbl ++ [r]) (fun x hx => hfk x (List.mem_cons_of_mem r hx))
        with h | h
      · left; rw [h, hassoc]
      · right; exact h

theorem insertChecked_error_of_dup {α β : Type} [DecidableEq β] (key : α → β)
    (fk : α → Bool) (rows tbl : List α) (hfk : ∀ r ∈ rows, fk r = true)
    (hnd : (tbl.map key).Nodup) (hdup : ¬ ((tbl ++ rows).map key).Nodup) :
    insertChecked key fk tbl rows = .error .uniqueViolation := by
  rcases insertChecked_ok_or_unique key fk rows tbl hfk with h | h
  · exact absurd (insertChecked_ok_inv key fk rows tbl _ hnd h).2 hdup
  · exact h

/-! ### Lemmas about the wide-to-long melt -/

theorem melt_keys_nodup {src : List SourceRow} (pops : List String)
    (hpops : pops.Nodup) (hnd : (src.map fun r => r.sample).Nodup) :
    (((pops.flatMap fun p => src.map (meltRow p)).map
      fun c => (c.sample_id, c.population)).Nodup) := by
  induction pops with
  | nil => simp
  | cons p ps ih =>
    rcases List.nodup_cons.mp hpops with ⟨hp, hps⟩
    rw [List.flatMap_cons, List.map_append]
    rw [List.nodup_append]
    refine ⟨?_, ih hps, ?_⟩
    · have hmm : ((src.map (meltRow p)).map fun c => (c.sample_id, c.population))
          = (src.map fun r => r.sample).map fun s => (s, p) := by
        simp [List.map_map, meltRow, Function.comp]
      rw [hmm]
      exact hnd.map fun a b hab => (Prod.mk.injEq _ _ _ _ ▸ hab).1
    · intro a ha hb
      rcases List.mem_map.mp ha with ⟨c, hc, hca⟩
      rcases List.mem_map.mp hc with ⟨r, _, hrc⟩
      have ha2 : a.2 = p := by rw [← hca, ← hrc]; rfl
      rcases List.mem_map.mp hb with ⟨c', hc', hca'⟩
      rcases List.mem_flatMap.mp hc' with ⟨q, hq, hcq⟩
      rcases List.mem_map.mp hcq with ⟨r', _, hrc'⟩
      have hb2 : a.2 = q := by rw [← hca', ← hrc']; rfl
      have hpq : p = q := by rw [← ha2, hb2]
      exact hp (hpq ▸ hq)

theorem melt_keys_nodup_iff (src : List SourceRow) :
    ((melt src).map fun c => (c.sample_id, c.population)).Nodup ↔
      (src.map fun r => r.sample).Nodup := by
  constructor
  · intro h
    have hblock : ((src.map (meltRow "b_cell")).map
        fun c => (c.sample_id, c.population)).Nodup := by
      have : melt src = src.map (meltRow "b_cell")
          ++ (["cd8_t_cell", "cd4_t_cell", "nk_cell", "monocyte"].flatMap
            fun p => src.map (meltRow p)) := by
        simp [melt, POPULATION_COLUMNS]
      rw [this, List.map_append] at h
      exact (List.nodup_append.mp h).1
    have hmm : ((src.map (meltRow "b_cell")).map
        fun c => (c.sample_id, c.population))
        = (src.map fun r => r.sample).map fun s => (s, "b_cell") := by
      simp [List.map_map, meltRow, Function.comp]
    rw [hmm] at hblock
    exact hblock.of_map _
  · intro h
    exact melt_keys_nodup POPULATION_COLUMNS (by decide) h

theorem melt_samples_sub (src : List SourceRow) :
    ∀ c ∈ melt src, ∃ r ∈ src, c.sample_id = r.sample := by
  intro c hc
  rcases List.mem_flatMap.mp hc with ⟨p, _, hcp⟩
  rcases List.mem_map.mp hcp with ⟨r, hr, hrc⟩
  exact ⟨r, hr, by rw [← hrc]; rfl⟩

theorem melt_length (src : List SourceRow) :
    (melt src).length = src.length * 5 := by
  simp [melt, POPULATION_COLUMNS]
  omega

/-! ### Behaviour of the three insertion steps of `load_all` -/

theorem _insert_subjects_eq (src : List SourceRow) :
    _insert_subjects src = .ok (subjectsOf src) := by
  have hkeys : (subjectsOf src).map Subject.subject_id
      = (dedupByKey (fun r => r.subject) src).map fun r => r.subject := by
    simp [subjectsOf, List.map_map, toSubject, Function.comp]
  have h := insertChecked_ok Subject.subject_id (fun _ => true)
    (subjectsOf src) [] (fun _ _ => rfl)
    (by simp only [List.nil_append]; rw [hkeys]
        exact nodup_keys_dedupByKey _ _)
  simpa [_insert_subjects] using h

theorem _insert_samples_eq (src : List SourceRow) :
    _insert_samples (subjectsOf src) src = .ok (samplesOf src) := by
  have hkeys : (samplesOf src).map Sample.sample_id
      = (dedupByKey (fun r => r.sample) src).map fun r => r.sample := by
    simp [samplesOf, List.map_map, toSample, Function.comp]
  have hfk : ∀ s ∈ samplesOf src,
      ((subjectsOf src).any fun x => decide (x.subject_id = s.subject_id))
        = true := by
    intro s hs
    rcases List.mem_map.mp hs with ⟨r, hr, hrs⟩
    have hrsrc : r ∈ src := mem_of_mem_dedupByKey _ _ r hr
    have hsub := key_mem_dedupByKey (fun r => r.subject) src r hrsrc
    rcases List.mem_map.mp hsub with ⟨r', hr', hrr'⟩
    refine List.any_eq_true.mpr ⟨toSubject r', ?_, ?_⟩
    · exact List.mem_map_of_mem toSubject hr'
    · simp [toSubject, ← hrs, toSample, hrr']
  have h := insertChecked_ok Sample.sample_id
    (fun s => (subjectsOf src).any fun x => decide (x.subject_id = s.subject_id))
    (samplesOf src) [] hfk
    (by simp only [List.nil_append]; rw [hkeys]
        exact nodup_keys_dedupByKey _ _)
  simpa [_insert_samples] using h

theorem _insert_cell_counts_fk (src : List SourceRow) :
    ∀ c ∈ melt src,
      ((samplesOf src).any fun s => decide (s.sample_id = c.sample_id))
        = true := by
  intro c hc
  rcases melt_samples_sub src c hc with ⟨r, hr, hcr⟩
  have hsub := key_mem_dedupByKey (fun r => r.sample) src r hr
  rcases List.mem_map.mp hsub with ⟨r', hr', hrr'⟩
  refine List.any_eq_true.mpr ⟨toSample r', ?_, ?_⟩
  · exact List.mem_map_of_mem toSample hr'
  · simp [toSample, hcr, hrr']

theorem _insert_cell_counts_eq (src : List SourceRow)
    (hnd : (src.map fun r => r.sample).Nodup) :
    _insert_cell_counts (samplesOf src) src = .ok (melt src) := by
  have h := insertChecked_ok (fun c : CellCount => (c.sample_id, c.population))
    (fun c => (samplesOf src).any fun s => decide (s.sample_id = c.sample_id))
    (melt src) [] (_insert_cell_counts_fk src)
    (by simp only [List.nil_append]
        exact (melt_keys_nodup_iff src).mpr hnd)
  simpa [_insert_cell_counts] using h

theorem _insert_cell_counts_dup (src : List SourceRow)
    (hdup : ¬ (src.map fun r => r.sample).Nodup) :
    _insert_cell_counts (samplesOf src) src = .error .uniqueViolation := by
  have h := insertChecked_error_of_dup
    (fun c : CellCount => (c.sample_id, c.population))
    (fun c => (samplesOf src).any fun s => decide (s.sample_id = c.sample_id))
    (melt src) [] (_insert_cell_counts_fk src) (by simp)
    (by simp only [List.nil_append]
        exact fun h => hdup ((melt_keys_nodup_iff src).mp h))
  simpa [_insert_cell_counts] using h

/-- Full characterization of a successful ingestion run. -/
theorem load_all_some_eq (prior : Store) (src : List SourceRow)
    (hnd : (src.map fun r => r.sample).Nodup) :
    load_all prior (some src)
      = (⟨subjectsOf src, samplesOf src, melt src⟩, none) := by
  simp only [load_all, _insert_subjects_eq, _insert_samples_eq,
    _insert_cell_counts_eq src hnd]

/-- Full characterization of an ingestion run on a source with a repeated
sample id: the melt produces a duplicate `(sample_id, population)` pair, the
cell-count insert aborts with the uniqueness violation, and the store keeps
the already committed subject and sample writes. -/
theorem load_all_some_dup (prior : Store) (src : List SourceRow)
    (hdup : ¬ (src.map fun r => r.sample).Nodup) :
    load_all prior (some src)
      = (⟨subjectsOf src, samplesOf src, []⟩, some .uniqueViolation) := by
  simp only [load_all, _insert_subjects_eq, _insert_samples_eq,
    _insert_cell_counts_dup src hdup]

theorem melt_countP_aux (src : List SourceRow) (sid : String)
    (hone : (src.countP fun r => decide (r.sample = sid)) = 1) (p : String) :
    ∀ (pops : List String), pops.Nodup → p ∈ pops →
      ((pops.flatMap fun q => src.map (meltRow q)).countP
        fun c => decide (c.sample_id = sid ∧ c.population = p)) = 1 := by
  intro pops
  induction pops with
  | nil => intro _ h; cases h
  | cons q qs ih =>
    intro hnd hp
    rcases List.nodup_cons.mp hnd with ⟨hq, hnd'⟩
    rw [List.flatMap_cons, List.countP_append]
    by_cases hpq : p = q
    · subst hpq
      have hblock : ((src.map (meltRow p)).countP
          fun c => decide (c.sample_id = sid ∧ c.population = p)) = 1 := by
        rw [List.countP_map]
        rw [show ((fun c : CellCount => decide (c.sample_id = sid ∧
            c.population = p)) ∘ meltRow p)
            = fun r : SourceRow => decide (r.sample = sid) from ?_]
        · exact hone
        · funext r
          simp [meltRow]
      have hrest : ((qs.flatMap fun q' => src.map (meltRow q')).countP
          fun c => decide (c.sample_id = sid ∧ c.population = p)) = 0 := by
        rw [List.countP_eq_zero]
        intro c hc
        rcases List.mem_flatMap.mp hc with ⟨q', hq', hcq'⟩
        rcases List.mem_map.mp hcq' with ⟨r, _, hrc⟩
        have hpop : c.population = q' := by rw [← hrc]; rfl
        simp only [decide_eq_true_eq, not_and]
        intro _
        rw [hpop]
        exact fun h => hq (h ▸ hq')
      rw [hblock, hrest]
    · have hblock0 : ((src.map (meltRow q)).countP
          fun c => decide (c.sample_id = sid ∧ c.population = p)) = 0 := by
        rw [List.countP_eq_zero]
        intro c hc
        rcases List.mem_map.mp hc with ⟨r, _, hrc⟩
        have hpop : c.population = q := by rw [← hrc]; rfl
        simp only [decide_eq_true_eq, not_and]
        intro _
        rw [hpop]
        exact fun h => hpq h.symm
      have hp' : p ∈ qs := by
        rcases List.mem_cons.mp hp with h | h
        · exact absurd h hpq
        · exact h
      rw [hblock0, ih hnd' hp']

/-- On a duplicate-free source, the melt holds exactly one row per
`(sample, population)` pair. -/
theorem melt_count_one (src : List SourceRow)
    (hnd : (src.map fun r => r.sample).Nodup) (sid : String)
    (hsid : sid ∈ src.map fun r => r.sample) (p : String)
    (hp : p ∈ POPULATION_COLUMNS) :
    ((melt src).filter fun c =>
      decide (c.sample_id = sid ∧ c.population = p)).length = 1 := by
  have hone : (src.countP fun r => decide (r.sample = sid)) = 1 := by
    rw [List.countP_eq_length_filter]
    exact filter_len_one_of_nodup_keys (fun r => r.sample) src hnd sid hsid
  rw [← List.countP_eq_length_filter]
  exact melt_countP_aux src sid hone p POPULATION_COLUMNS (by decide) hp

/-! ### Claim theorems about ingestion -/

/-- C10: ingesting a source containing two rows with the same sample id
raises a uniqueness-violation error, because the wide-to-long melt operates
on the raw non-deduplicated source and produces a duplicate
`(sample_id, population)` pair rejected by `UNIQUE(sample_id, population)`. -/
theorem load_all_duplicate_sample_rejected (prior : Store)
    (src : List SourceRow) (hdup : ¬ (src.map fun r => r.sample).Nodup) :
    (load_all prior (some src)).2 = some LoadError.uniqueViolation := by
  rw [load_all_some_dup prior src hdup]

/-- Witness for C10 at the concrete duplicated source. -/
theorem load_all_duplicate_sample_rejected_witness :
    (¬ ((srcDup.map fun r => r.sample).Nodup)) ∧
    (load_all emptyStore (some srcDup)).2 = some LoadError.uniqueViolation :=
  ⟨by decide, load_all_duplicate_sample_rejected emptyStore srcDup (by decide)⟩

/-- C2 counterexample: a failing ingestion run (duplicate sample id) surfaces
the error but does not leave the persisted store in its prior state. -/
theorem load_all_not_atomic_cex :
    (load_all priorC2 (some srcDup)).2 = some LoadError.uniqueViolation ∧
    (load_all priorC2 (some srcDup)).1 ≠ priorC2 := by
  have h := load_all_some_dup priorC2 srcDup (by decide)
  refine ⟨by rw [h], ?_⟩
  rw [h]
  intro heq
  have hcc := congrArg Store.cell_counts heq
  simp [priorC2] at hcc

/-- C2 (amended): on a write failure during ingestion the error is surfaced,
but the store is not left in its prior state: the prior database file was
deleted up front and the store retains the committed subject and sample
writes with no cell counts (half-populated). Only the missing-input failure,
raised before the database file is touched, preserves the prior store. -/
theorem load_all_failure_half_populated (prior : Store) (src : List SourceRow)
    (e : LoadError) (h : (load_all prior (some src)).2 = some e) :
    e = LoadError.uniqueViolation ∧
    (load_all prior (some src)).1 = ⟨subjectsOf src, samplesOf src, []⟩ ∧
    load_all prior none = (prior, some LoadError.inputNotFound) := by
  by_cases hnd : (src.map fun r => r.sample).Nodup
  · rw [load_all_some_eq prior src hnd] at h
    cases h
  · rw [load_all_some_dup prior src hnd] at h
    rw [load_all_some_dup prior src hnd]
    exact ⟨by cases h; rfl, rfl, rfl⟩

/-- Witness for the amended C2 at the concrete failing run. -/
theorem load_all_failure_half_populated_witness :
    (load_all priorC2 (some srcDup)).1
      = ⟨subjectsOf srcDup, samplesOf srcDup, []⟩ :=
  (load_all_failure_half_populated priorC2 srcDup LoadError.uniqueViolation
    (by rw [load_all_some_dup priorC2 srcDup (by decide)])).2.1

/-- C4: for every source accepted by ingestion, the subject count equals the
number of distinct subject ids, the sample count equals the number of
distinct sample ids, and the cell-count table has exactly `|samples| × 5`
rows — one row per sample per population, including zero counts. -/
theorem load_all_row_counts (prior : Store) (src : List SourceRow)
    (h : (load_all prior (some src)).2 = none) :
    ((load_all prior (some src)).1.subjects.length
        = ((src.map fun r => r.subject).dedup).length) ∧
    ((load_all prior (some src)).1.samples.length
        = ((src.map fun r => r.sample).dedup).length) ∧
    ((load_all prior (some src)).1.cell_counts.length
        = (load_all prior (some src)).1.samples.length * 5) ∧
    (∀ s ∈ (load_all prior (some src)).1.samples, ∀ p ∈ POPULATION_COLUMNS,
      ((load_all prior (some src)).1.cell_counts.filter fun c =>
        decide (c.sample_id = s.sample_id ∧ c.population = p)).length = 1) := by
  by_cases hnd : (src.map fun r => r.sample).Nodup
  · rw [load_all_some_eq prior src hnd]
    refine ⟨?_, ?_, ?_, ?_⟩
    · rw [subjectsOf, List.length_map, length_dedupByKey]
    · rw [samplesOf, List.length_map, length_dedupByKey]
    · rw [melt_length, samplesOf, dedupByKey_eq_self _ _ hnd, List.length_map]
    · intro s hs p hp
      rw [samplesOf, dedupByKey_eq_self _ _ hnd] at hs
      rcases List.mem_map.mp hs with ⟨r, hr, rfl⟩
      have := melt_count_one src hnd r.sample
        (List.mem_map_of_mem _ hr) p hp
      simpa [toSample] using this
  · rw [load_all_some_dup prior src hnd] at h
    cases h

/-- Witness for C4 at the concrete two-row source. -/
theorem load_all_row_counts_witness :
    (load_all emptyStore (some demoSrc)).2 = none ∧
    (load_all emptyStore (some demoSrc)).1.subjects.length
      = ((demoSrc.map fun r => r.subject).dedup).length :=
  ⟨by rw [load_all_some_eq emptyStore demoSrc (by decide)],
   (load_all_row_counts emptyStore demoSrc
     (by rw [load_all_some_eq emptyStore demoSrc (by decide)])).1⟩

/-- C6: re-running ingestion on the same source yields an identical result
(store and error), because `load_all` deletes the store file and rebuilds it
deterministically from the source alone. -/
theorem load_all_idempotent (prior : Store) (src? : Option (List SourceRow))
    (h : (load_all prior src?).2 = none) :
    load_all ((load_all prior src?).1) src? = load_all prior src? := by
  cases src? with
  | none => simp [load_all] at h
  | some src => rfl

/-- Witness for C6 at the concrete two-row source. -/
theorem load_all_idempotent_witness :
    (load_all emptyStore (some demoSrc)).2 = none ∧
    load_all ((load_all emptyStore (some demoSrc)).1) (some demoSrc)
      = load_all emptyStore (some demoSrc) :=
  ⟨by rw [load_all_some_eq emptyStore demoSrc (by decide)],
   load_all_idempotent emptyStore (some demoSrc)
     (by rw [load_all_some_eq emptyStore demoSrc (by decide)])⟩

/-! ### Lemmas about the frequency table -/

theorem build_frequency_table_eq (st : Store) :
    build_frequency_table st
      = List.insertionSort freqLE (freqRows st.cell_counts) := rfl

theorem freqRows_eq_map (cc : List CellCount) :
    freqRows cc = cc.map fun c =>
      ⟨c.sample_id, totalFor CellCount.sample_id CellCount.count cc c.sample_id,
       c.population, c.count,
       if totalFor CellCount.sample_id CellCount.count cc c.sample_id = 0
       then none
       else some ((c.count : ℚ)
         / (totalFor CellCount.sample_id CellCount.count cc c.sample_id : ℚ)
         * 100)⟩ := by
  simp only [freqRows, _attach_percentages, List.map_map]
  rfl

theorem freqRows_filter (cc : List CellCount) (s : String) :
    ((freqRows cc).filter fun r => decide (r.sample = s))
      = (cc.filter fun c => decide (c.sample_id = s)).map fun c =>
        ⟨c.sample_id, totalFor CellCount.sample_id CellCount.count cc c.sample_id,
         c.population, c.count,
         if totalFor CellCount.sample_id CellCount.count cc c.sample_id = 0
         then none
         else some ((c.count : ℚ)
           / (totalFor CellCount.sample_id CellCount.count cc c.sample_id : ℚ)
           * 100)⟩ := by
  rw [freqRows_eq_map, List.filter_map]
  rfl

/-! ### Claim theorems about the frequency table -/

/-- C1: for every sample with a positive total count, the percentages that
`build_frequency_table` attaches to that sample's rows are all defined and
sum to 100 within a tolerance of one millionth (exactly, in rational
arithmetic). -/
theorem build_frequency_table_percentages_sum (st : Store) (s : String)
    (h : 0 < totalFor CellCount.sample_id CellCount.count st.cell_counts s) :
    (∀ r ∈ (build_frequency_table st).filter fun r => decide (r.sample = s),
      r.percentage ≠ none) ∧
    |(((build_frequency_table st).filter fun r => decide (r.sample = s)).map
        fun r => r.percentage.getD 0).sum - 100| ≤ 1 / 1000000 := by
  have hT0 : totalFor CellCount.sample_id CellCount.count st.cell_counts s
      ≠ 0 := Nat.pos_iff_ne_zero.mp h
  have hperm : ((build_frequency_table st).filter
        fun r => decide (r.sample = s)).Perm
      ((freqRows st.cell_counts).filter fun r => decide (r.sample = s)) := by
    rw [build_frequency_table_eq]
    exact (List.perm_insertionSort freqLE _).filter _
  constructor
  · intro r hr
    have hr2 := hperm.mem_iff.mp hr
    rw [freqRows_filter] at hr2
    rcases List.mem_map.mp hr2 with ⟨c, hc, rfl⟩
    have hcs : c.sample_id = s := by simpa using List.of_mem_filter hc
    dsimp only
    rw [hcs, if_neg hT0]
    simp
  · have hsum : (((build_frequency_table st).filter
          fun r => decide (r.sample = s)).map
        fun r => r.percentage.getD 0).sum
        = (((freqRows st.cell_counts).filter fun r => decide (r.sample = s)).map
          fun r => r.percentage.getD 0).sum :=
      (hperm.map _).sum_eq
    rw [hsum, freqRows_filter, List.map_map]
    have hcongr : ((st.cell_counts.filter fun c => decide (c.sample_id = s)).map
          ((fun r : FreqRow => r.percentage.getD 0) ∘ fun c =>
            (⟨c.sample_id,
              totalFor CellCount.sample_id CellCount.count st.cell_counts
                c.sample_id,
              c.population, c.count,
              if totalFor CellCount.sample_id CellCount.count st.cell_counts
                  c.sample_id = 0
              then none
              else some ((c.count : ℚ)
                / (totalFor CellCount.sample_id CellCount.count st.cell_counts
                    c.sample_id : ℚ) * 100)⟩ : FreqRow)))
        = (st.cell_counts.filter fun c => decide (c.sample_id = s)).map
          fun c => (c.count : ℚ)
            * (100 / (totalFor CellCount.sample_id CellCount.count
                st.cell_counts s : ℚ)) := by
      apply List.map_congr_left
      intro c hc
      have hcs : c.sample_id = s := by simpa using List.of_mem_filter hc
      dsimp only [Function.comp_apply]
      rw [hcs, if_neg hT0]
      rw [Option.getD_some, div_mul_eq_mul_div, mul_div_assoc]
    rw [hcongr, List.sum_map_mul_right]
    have hcast : ((st.cell_counts.filter fun c => decide (c.sample_id = s)).map
          fun c => ((c.count : ℚ))).sum
        = ((((st.cell_counts.filter fun c => decide (c.sample_id = s)).map
          fun c => c.count).sum : ℕ) : ℚ) := by
      rw [Nat.cast_list_sum, List.map_map]
      rfl
    rw [hcast]
    have hTS : ((st.cell_counts.filter fun c => decide (c.sample_id = s)).map
          fun c => c.count).sum
        = totalFor CellCount.sample_id CellCount.count st.cell_counts s := rfl
    rw [hTS]
    have hQ : ((totalFor CellCount.sample_id CellCount.count st.cell_counts s
        : ℕ) : ℚ) ≠ 0 := Nat.cast_ne_zero.mpr hT0
    rw [mul_comm, div_mul_cancel₀ _ hQ]
    norm_num

/-- Witness for C1 at the concrete store: sample `s1` has total 400 and its
percentages sum to 100 within the tolerance. -/
theorem build_frequency_table_percentages_sum_witness :
    0 < totalFor CellCount.sample_id CellCount.count demoStore.cell_counts
      "s1" ∧
    |(((build_frequency_table demoStore).filter
        fun r => decide (r.sample = "s1")).map
        fun r => r.percentage.getD 0).sum - 100| ≤ 1 / 1000000 :=
  ⟨by decide,
   (build_frequency_table_percentages_sum demoStore "s1" (by decide)).2⟩

/-- C5: `build_frequency_table` returns exactly one row per stored
`cell_counts` row (a permutation of the mapped table), sorted ascending by
`(sample, population)`, and every row carries its sample's total count and
the percentage `100 × count / total_count`. -/
theorem build_frequency_table_spec (st : Store) :
    (build_frequency_table st).Perm (st.cell_counts.map fun c =>
      ⟨c.sample_id,
       totalFor CellCount.sample_id CellCount.count st.cell_counts c.sample_id,
       c.population, c.count,
       if totalFor CellCount.sample_id CellCount.count st.cell_counts
           c.sample_id = 0
       then none
       else some ((c.count : ℚ)
         / (totalFor CellCount.sample_id CellCount.count st.cell_counts
             c.sample_id : ℚ) * 100)⟩) ∧
    List.Sorted freqLE (build_frequency_table st) ∧
    ∀ r ∈ build_frequency_table st,
      r.total_count
        = totalFor CellCount.sample_id CellCount.count st.cell_counts
            r.sample ∧
      (r.total_count ≠ 0 →
        r.percentage = some (100 * (r.count : ℚ) / (r.total_count : ℚ))) := by
  refine ⟨?_, ?_, ?_⟩
  · rw [build_frequency_table_eq, ← freqRows_eq_map]
    exact List.perm_insertionSort freqLE _
  · rw [build_frequency_table_eq]
    exact List.sorted_insertionSort freqLE _
  · intro r hr
    rw [build_frequency_table_eq] at hr
    have hr2 : r ∈ freqRows st.cell_counts :=
      (List.perm_insertionSort freqLE _).mem_iff.mp hr
    rw [freqRows_eq_map] at hr2
    rcases List.mem_map.mp hr2 with ⟨c, _, rfl⟩
    refine ⟨rfl, ?_⟩
    intro ht
    dsimp only at ht ⊢
    rw [if_neg ht]
    congr 1
    rw [div_mul_eq_mul_div, mul_comm]

/-- Witness for C5: the first row of the sorted demo table is the zero-count
`s0` row and carries its sample's total. -/
theorem build_frequency_table_spec_witness :
    (⟨"s0", 0, "b_cell", 0, none⟩ : FreqRow) ∈ build_frequency_table demoStore ∧
    (⟨"s0", 0, "b_cell", 0, none⟩ : FreqRow).total_count
      = totalFor CellCount.sample_id CellCount.count demoStore.cell_counts
          "s0" := by
  have htot : totalFor CellCount.sample_id CellCount.count demoStore.cell_counts
      "s0" = 0 := by decide
  have hmem : (⟨"s0", 0, "b_cell", 0, none⟩ : FreqRow)
      ∈ build_frequency_table demoStore := by
    rw [build_frequency_table_eq, List.mem_insertionSort, freqRows_eq_map]
    refine List.mem_map.mpr ⟨⟨"s0", "b_cell", 0⟩, by decide, ?_⟩
    simp [htot]
  exact ⟨hmem, ((build_frequency_table_spec demoStore).2.2 _ hmem).1⟩

/-- C9: for a sample whose counts are all zero, `build_frequency_table`
does not raise: the sample's rows are all present in the output and each of
their percentages is the `NaN` produced by the unguarded `0 / 0` division,
silently handed to the caller. -/
theorem build_frequency_table_zero_total (st : Store) (s : String)
    (h : totalFor CellCount.sample_id CellCount.count st.cell_counts s = 0) :
    (∀ r ∈ build_frequency_table st, r.sample = s → r.percentage = none) ∧
    ((build_frequency_table st).filter fun r => decide (r.sample = s)).length
      = (st.cell_counts.filter fun c => decide (c.sample_id = s)).length := by
  constructor
  · intro r hr hrs
    rw [build_frequency_table_eq] at hr
    have hr2 : r ∈ freqRows st.cell_counts :=
      (List.perm_insertionSort freqLE _).mem_iff.mp hr
    rw [freqRows_eq_map] at hr2
    rcases List.mem_map.mp hr2 with ⟨c, _, rfl⟩
    have hcs : c.sample_id = s := hrs
    dsimp only
    rw [hcs, if_pos h]
  · have hperm : ((build_frequency_table st).filter
          fun r => decide (r.sample = s)).Perm
        ((freqRows st.cell_counts).filter fun r => decide (r.sample = s)) := by
      rw [build_frequency_table_eq]
      exact (List.perm_insertionSort freqLE _).filter _
    rw [hperm.length_eq, freqRows_filter, List.length_map]

/-- Witness for C9 at the concrete store: sample `s0` has total 0, and its
row count is preserved in the output. -/
theorem build_frequency_table_zero_total_witness :
    totalFor CellCount.sample_id CellCount.count demoStore.cell_counts "s0"
      = 0 ∧
    ((build_frequency_table demoStore).filter
        fun r => decide (r.sample = "s0")).length
      = (demoStore.cell_counts.filter
        fun c => decide (c.sample_id = "s0")).length :=
  ⟨by decide, (build_frequency_table_zero_total demoStore "s0" (by decide)).2⟩

/-! ### Claim theorems about cohort selection -/

/-- C8: a cohort predicate matching zero Sample×Subject rows yields an empty
result from both cohort queries, not an error. -/
theorem cohort_empty_predicate (st : Store) :
    ((¬ ∃ s ∈ st.samples, ∃ sub ∈ st.subjects,
        s.subject_id = sub.subject_id ∧ sub.condition = "melanoma" ∧
        s.sample_type = "PBMC" ∧ s.treatment = some "miraclib" ∧
        s.time_from_treatment_start = some 0) →
      fetch_baseline_melanoma_samples st = []) ∧
    ((¬ ∃ s ∈ st.samples, ∃ sub ∈ st.subjects,
        s.subject_id = sub.subject_id ∧ sub.condition = "melanoma" ∧
        s.treatment = some "miraclib" ∧ s.sample_type = "PBMC") →
      fetch_melanoma_miraclib_pbmc st = []) := by
  constructor
  · intro h
    rw [fetch_baseline_melanoma_samples, List.flatMap_eq_nil_iff]
    intro s hs
    rw [List.map_eq_nil_iff, List.filter_eq_nil_iff]
    intro sub hsub hpred
    simp only [Bool.and_eq_true, decide_eq_true_eq] at hpred
    obtain ⟨⟨⟨⟨h1, h2⟩, h3⟩, h4⟩, h5⟩ := hpred
    exact h ⟨s, hs, sub, hsub, h1, h2, h3, h4, h5⟩
  · intro h
    have hjoined : melJoined st = [] := by
      rw [melJoined, List.flatMap_eq_nil_iff]
      intro cc _
      rw [List.flatMap_eq_nil_iff]
      intro s hs
      rcases List.mem_filter.mp hs with ⟨hsmem, hspred⟩
      simp only [Bool.and_eq_true, decide_eq_true_eq] at hspred
      obtain ⟨⟨_, htreat⟩, htype⟩ := hspred
      rw [List.map_eq_nil_iff, List.filter_eq_nil_iff]
      intro sub hsub hps
      simp only [Bool.and_eq_true, decide_eq_true_eq] at hps
      exact h ⟨s, hsmem, sub, hsub, hps.1, hps.2, htreat, htype⟩
    rw [fetch_melanoma_miraclib_pbmc, hjoined]
    rfl

/-- Witness for C8 at a nonempty store whose single sample fails the
treatment predicate. -/
theorem cohort_empty_predicate_witness :
    fetch_baseline_melanoma_samples stC8 = [] ∧
    fetch_melanoma_miraclib_pbmc stC8 = [] :=
  ⟨(cohort_empty_predicate stC8).1 (by decide),
   (cohort_empty_predicate stC8).2 (by decide)⟩

/-! ### Claim theorems about the baseline summary -/

/-- C7: `summarize_baseline_subset` counts samples per project at the row
level (the per-project counts sum to the number of cohort rows), while the
response and sex counts run over subjects deduplicated by `subject_id`:
each subject id occurring in the cohort keeps exactly one row, and the
response groups of the deduplicated subjects partition the distinct subject
ids. -/
theorem summarize_baseline_subset_spec (baseline : List BaselineRow) :
    ((((baseline.map fun r => r.project).dedup).map
        (summarize_baseline_subset baseline).samples_per_project).sum
      = baseline.length) ∧
    (∀ sid ∈ baseline.map fun r => r.subject_id,
      ((dedupByKey (fun r => r.subject_id) baseline).filter fun r =>
        decide (r.subject_id = sid)).length = 1) ∧
    (((((dedupByKey (fun r => r.subject_id) baseline).map
          fun r => r.response).dedup).map
        fun v => ((dedupByKey (fun r => r.subject_id) baseline).filter fun r =>
          decide (r.response = v)).length).sum
      = ((baseline.map fun r => r.subject_id).dedup).length) ∧
    (∀ v : String, (summarize_baseline_subset baseline).response_counts v
      = ((dedupByKey (fun r => r.subject_id) baseline).filter fun r =>
          decide (r.response = some v)).length) ∧
    (∀ v : String, (summarize_baseline_subset baseline).sex_counts v
      = ((dedupByKey (fun r => r.subject_id) baseline).filter fun r =>
          decide (r.sex = some v)).length) := by
  refine ⟨?_, ?_, ?_, fun v => rfl, fun v => rfl⟩
  · have hfun : (((baseline.map fun r => r.project).dedup).map
        (summarize_baseline_subset baseline).samples_per_project)
        = ((baseline.map fun r => r.project).dedup).map
          fun v => baseline.countP fun x => decide (x.project = v) := by
      apply List.map_congr_left
      intro v _
      show (baseline.filter fun r => decide (r.project = v)).length = _
      rw [List.countP_eq_length_filter]
    rw [hfun, sum_group_lengths]
  · intro sid hsid
    rcases List.mem_map.mp hsid with ⟨r, hr, rfl⟩
    exact dedupByKey_filter_len_one (fun r => r.subject_id) baseline r hr
  · have hfun : ((((dedupByKey (fun r => r.subject_id) baseline).map
          fun r => r.response).dedup).map
        fun v => ((dedupByKey (fun r => r.subject_id) baseline).filter fun r =>
          decide (r.response = v)).length)
        = (((dedupByKey (fun r => r.subject_id) baseline).map
            fun r => r.response).dedup).map
          fun v => (dedupByKey (fun r => r.subject_id) baseline).countP
            fun x => decide (x.response = v) := by
      apply List.map_congr_left
      intro v _
      rw [List.countP_eq_length_filter]
    rw [hfun, sum_group_lengths, length_dedupByKey]

/-- Witness for C7 at the specification's example cohort: subject `A` has
two samples but appears exactly once after deduplication. -/
theorem summarize_baseline_subset_spec_witness :
    ("A" ∈ demoBaseline.map fun r => r.subject_id) ∧
    ((dedupByKey (fun r => r.subject_id) demoBaseline).filter fun r =>
      decide (r.subject_id = "A")).length = 1 :=
  ⟨by decide,
   (summarize_baseline_subset_spec demoBaseline).2.1 "A" (by decide)⟩

/-! ### Claim theorems about the responder comparison -/

theorem compareGo_error (df : List (WithPct MelRow)) :
    ∀ (pops : List String),
      (∃ pop ∈ pops, yesGroup df pop = [] ∨ noGroup df pop = []) →
      compareGo df pops = .error .valueError := by
  intro pops
  induction pops with
  | nil =>
    rintro ⟨pop, hmem, _⟩
    cases hmem
  | cons p ps ih =>
    rintro ⟨pop, hmem, hcase⟩
    by_cases hemp : yesGroup df p = [] ∨ noGroup df p = []
    · have hcond : (yesGroup df p).length = 0 ∨ (noGroup df p).length = 0 := by
        rcases hemp with h | h
        · exact Or.inl (by rw [h]; rfl)
        · exact Or.inr (by rw [h]; rfl)
      have hmwu : mannwhitneyu (yesGroup df p) (noGroup df p)
          = .error .valueError := by
        simp only [mannwhitneyu]
        rw [if_pos hcond]
      simp only [compareGo, hmwu]
    · have hps : ∃ pop ∈ ps, yesGroup df pop = [] ∨ noGroup df pop = [] := by
        rcases List.mem_cons.mp hmem with h | h
        · exact absurd (h ▸ hcase) hemp
        · exact ⟨pop, h, hcase⟩
      have hih := ih hps
      have hcond : ¬ ((yesGroup df p).length = 0 ∨ (noGroup df p).length = 0) := by
        rw [not_or] at hemp ⊢
        exact ⟨fun h2 => hemp.1 (List.length_eq_zero.mp h2),
          fun h2 => hemp.2 (List.length_eq_zero.mp h2)⟩
      obtain ⟨pr, hpr⟩ : ∃ pr,
          mannwhitneyu (yesGroup df p) (noGroup df p) = .ok pr := by
        simp only [mannwhitneyu]
        rw [if_neg hcond]
        by_cases hnan : (((yesGroup df p).any fun v => v.isNone)
            || ((noGroup df p).any fun v => v.isNone)) = true
        · rw [if_pos hnan]
          exact ⟨_, rfl⟩
        · rw [if_neg hnan]
          exact ⟨_, rfl⟩
      obtain ⟨u, pv⟩ := pr
      simp only [compareGo, hpr, hih]

/-- C3 (amended): `compare_responders` has no handler for the library error:
whenever some population of the fixed list has an empty responder or
non-responder group, the whole comparison run aborts with the propagated
`ValueError` and no per-population results are produced. -/
theorem compare_responders_aborts (df : List (WithPct MelRow))
    (h : ∃ pop ∈ POPULATIONS, yesGroup df pop = [] ∨ noGroup df pop = []) :
    compare_responders df = .error .valueError :=
  compareGo_error df POPULATIONS h

/-- C3 counterexample: on a dataframe where only `b_cell` lacks
non-responders while `cd8_t_cell` (and the rest) have both groups,
`compare_responders` aborts the whole run with the library error: no
per-population `InsufficientGroupSizeError` reporting, no results for the
healthy populations. -/
theorem compare_responders_no_per_population_cex :
    compare_responders dfC3 = .error .valueError ∧
    yesGroup dfC3 "cd8_t_cell" ≠ [] ∧ noGroup dfC3 "cd8_t_cell" ≠ [] ∧
    noGroup dfC3 "b_cell" = [] :=
  ⟨rfl, by decide, by decide, rfl⟩

/-- Witness for the amended C3 at the empty dataframe, where every group of
every population is empty. -/
theorem compare_responders_aborts_witness :
    compare_responders [] = .error .valueError :=
  compare_responders_aborts [] (by decide)

end Teiko
